import Mathlib

/-
Verification of the analytics-and-alerting core of the AI-Enhanced Process
Monitoring repository: a shallow embedding, in Lean 4, of the JavaScript
source (DataPreprocessor, IsolationForest, LSTMPredictor, ProcessClassifier,
MLService history buffer, AlertService), followed by theorems settling the
specification claims.  JavaScript numbers are modelled as ℚ where the code
only adds, multiplies, divides and compares, and as ℝ where it takes
logarithms and real powers (IsolationForest.predict).  Timestamps
(Date.now()) are modelled as explicit ℕ parameters in milliseconds.
External collaborators (the Mongoose persistence layer, the TensorFlow
model object) are modelled as oracle parameters returning Option/Bool,
reflecting that their calls can fail (throw) or succeed.
-/

namespace ProcessMonitor

/-! ## DataPreprocessor (backend/src/ml/dataPreprocessor.js)

The preprocessor keeps a map from feature name to the scaling parameters
recorded by `normalize`.  The JS `Map` keyed by string is modelled as an
association list where `set` conses a fresh entry and lookup takes the most
recent one — observably identical to the JS map for `get`/`set`.
`standardize` (which records `{mean, std}`) is not needed by any claim
beyond the fact that it records parameters for a key, which the theorems
express through the lookup result directly. -/

structure Scaler where
  min : ℚ
  max : ℚ
  range : ℚ
deriving DecidableEq

structure DataPreprocessor where
  scalers : List (String × Scaler)
deriving DecidableEq

def DataPreprocessor.empty : DataPreprocessor := ⟨[]⟩

/-- Math.min(...values) over a non-empty argument list (the empty case is
never exercised by the claims; JS would give +Infinity there). -/
def listMin : List ℚ → ℚ
  | [] => 0
  | x :: xs => xs.foldl Min.min x

/-- Math.max(...values) over a non-empty argument list. -/
def listMax : List ℚ → ℚ
  | [] => 0
  | x :: xs => xs.foldl Max.max x

/-- Min-Max normalization: `normalize(data, featureName)` from
dataPreprocessor.js.  Records `{min, max, range = (max - min) || 1}` under
the feature name and returns the scaled values `(val - min) / range`.
Returns the updated preprocessor state together with the output list. -/
def DataPreprocessor.normalize (dp : DataPreprocessor) (data : List ℚ)
    (featureName : String) : DataPreprocessor × List ℚ :=
  let mn := listMin data
  let mx := listMax data
  let range := if mx - mn = 0 then 1 else mx - mn
  (⟨(featureName, ⟨mn, mx, range⟩) :: dp.scalers⟩,
   data.map (fun val => (val - mn) / range))

/-- Denormalize: `denormalize(normalizedData, featureName)` from
dataPreprocessor.js.  Throws (here: `Except.error`) when no scaler was
recorded for the feature name, otherwise maps `val * range + min`. -/
def DataPreprocessor.denormalize (dp : DataPreprocessor)
    (normalizedData : List ℚ) (featureName : String) : Except String (List ℚ) :=
  match dp.scalers.lookup featureName with
  | none => .error ("No scaler found for feature: " ++ featureName)
  | some scaler => .ok (normalizedData.map (fun val => val * scaler.range + scaler.min))

/-! ## HistoryStore (MLService.storeMetrics, backend/src/services/mlService.js)

`storeMetrics` pushes the snapshot onto the per-process array and then, if
the length exceeds `maxHistorySize` (100), shifts one element off the
front.  The per-process buffer evolution is captured by a pure step
function on lists; the snapshot type is abstract since the claim is about
the buffer's shape only. -/

/-- Model of one `storeMetrics` call on the buffer of a single processId:
`history.push(entry); if (history.length > maxHistorySize) history.shift()`. -/
def storeMetricsStep (maxHistorySize : ℕ) (history : List α) (entry : α) : List α :=
  let pushed := history ++ [entry]
  if maxHistorySize < pushed.length then pushed.tail else pushed

/-- Buffer obtained from a fresh (empty) history by appending the given
snapshots in order, one `storeMetrics` call each. -/
def storeMetricsRun (maxHistorySize : ℕ) (snaps : List α) : List α :=
  snaps.foldl (storeMetricsStep maxHistorySize) []

theorem storeMetricsStep_drop (cap : ℕ) (xs : List α) (x : α) :
    storeMetricsStep cap (xs.drop (xs.length - cap)) x
      = (xs ++ [x]).drop ((xs ++ [x]).length - cap) := by
  unfold storeMetricsStep
  rcases le_or_lt cap xs.length with hle | hlt
  · have hlen : (List.drop (xs.length - cap) xs).length = cap := by
      simp [Nat.sub_sub_self hle]
    have hcond : cap < (List.drop (xs.length - cap) xs ++ [x]).length := by
      simp [hlen]
    rw [if_pos hcond]
    have hdl : xs.length - cap ≤ xs.length := Nat.sub_le _ _
    rw [← List.drop_append_of_le_length hdl, List.tail_drop]
    have : xs.length - cap + 1 = (xs ++ [x]).length - cap := by
      simp [Nat.succ_sub hle]
    rw [this]
  · have h0 : xs.length - cap = 0 := Nat.sub_eq_zero_of_le hlt.le
    have h0' : (xs ++ [x]).length - cap = 0 := by
      simp [Nat.sub_eq_zero_of_le hlt]
    rw [h0, h0']
    simp only [List.drop_zero]
    have hcond : ¬ cap < (xs ++ [x]).length := by
      simp only [List.length_append, List.length_cons, List.length_nil]
      omega
    rw [if_neg hcond]

theorem storeMetricsRun_eq_drop_aux (cap : ℕ) (snaps xs : List α) :
    snaps.foldl (storeMetricsStep cap) (xs.drop (xs.length - cap))
      = (xs ++ snaps).drop ((xs ++ snaps).length - cap) := by
  induction snaps generalizing xs with
  | nil => simp
  | cons s rest ih =>
      rw [List.foldl_cons, storeMetricsStep_drop cap xs s, ih (xs ++ [s])]
      simp

/-! ## AlertService (alertService.js)

Timestamps are explicit ℕ parameters (the source reads `Date.now()`; one
call of a check function is modelled as happening at a single instant
`now`).  Alert persistence (`alert.save()`) is modelled by an oracle
`ok : AlertData → Bool` — `createAlert` returns `none` exactly when the
oracle reports a persistence failure, mirroring the source's catch block.
Alert messages (template strings with `toFixed`) and the `alertId` /
`activeAlerts` bookkeeping are not modelled: no claim refers to them.
Each source block `alerts.push(await this.createAlert({...})); this.setCooldown(key)`
is recorded as one event `(key, createAlert ok data)`; the array the
source returns is the second projection of the event list (`alertsOf`). -/

inductive AlertType
  | info
  | warning
  | critical
deriving DecidableEq

/-- Deduplication keys of the cooldown map.  The source uses composite
strings; each constructor stands for exactly one of them and `Key.render`
is the source's key expression, an injective rendering, so equality of
keys coincides with equality of the source strings. -/
inductive Key
  | sysCpuCritical
  | sysCpuWarning
  | sysMemCritical
  | procCpu (pid : ℕ)
  | procAnomaly (pid : ℕ)
  | procPrediction (pid : ℕ)
deriving DecidableEq

def Key.render : Key → String
  | .sysCpuCritical => "system-cpu-critical"
  | .sysCpuWarning => "system-cpu-warning"
  | .sysMemCritical => "system-memory-critical"
  | .procCpu pid => "process-" ++ toString pid ++ "-cpu"
  | .procAnomaly pid => "process-" ++ toString pid ++ "-anomaly"
  | .procPrediction pid => "process-" ++ toString pid ++ "-prediction"

/-- Shape of the structured `details` payload (alert schema in Alert.js). -/
structure AlertDetails where
  currentValue : Option ℚ := none
  threshold : Option ℚ := none
  anomalyScore : Option ℚ := none
  prediction : Option ℚ := none
deriving DecidableEq

structure AlertData where
  type : AlertType
  source : String
  metric : Option String := none
  processId : Option String := none
  processName : Option String := none
  details : AlertDetails := {}
  mlDetected : Bool := false
  algorithm : Option String := none
deriving DecidableEq

/-- An alert as constructed by createAlert: the posted data plus the
numeric severity computed from the type. -/
structure Alert where
  severity : ℕ
  data : AlertData
deriving DecidableEq

/-- calculateSeverity(type): critical 9, warning 6, info 3 (the source's
`default: 5` arm is unreachable since `type` ranges over the enum). -/
def calculateSeverity : AlertType → ℕ
  | .critical => 9
  | .warning => 6
  | .info => 3

/-- createAlert(alertData): builds the alert and persists it; on
persistence failure (oracle `ok` false, the source's catch) returns null. -/
def createAlert (ok : AlertData → Bool) (alertData : AlertData) : Option Alert :=
  if ok alertData then some ⟨calculateSeverity alertData.type, alertData⟩ else none

/-- Per-metric warning/critical cutoffs. -/
structure Threshold where
  warning : ℚ
  critical : ℚ

structure Thresholds where
  cpu : Threshold
  memory : Threshold
  disk : Threshold
  anomalyScore : Threshold

/-- this.thresholds from the AlertService constructor. -/
def thresholds : Thresholds :=
  ⟨⟨70, 85⟩, ⟨75, 90⟩, ⟨80, 95⟩, ⟨0.6, 0.8⟩⟩

/-- this.cooldownPeriod = 60000 (1 minute). -/
def cooldownPeriod : ℕ := 60000

/-- Mutable state of the service relevant to the claims: the cooldown map
(key → timestamp of the last alert).  Modelled as a function to Option. -/
structure AlertServiceState where
  alertCooldown : Key → Option ℕ

def initialAlertState : AlertServiceState := ⟨fun _ => none⟩

/-- isInCooldown(key): `Date.now() - lastAlert < this.cooldownPeriod`
(false when the key has never fired).  ℕ subtraction truncates at 0,
which agrees with the JS comparison (a negative difference is < 60000). -/
def isInCooldown (st : AlertServiceState) (now : ℕ) (key : Key) : Bool :=
  match st.alertCooldown key with
  | none => false
  | some lastAlert => decide (now - lastAlert < cooldownPeriod)

/-- setCooldown(key): `this.alertCooldown.set(key, Date.now())`. -/
def setCooldown (st : AlertServiceState) (now : ℕ) (key : Key) : AlertServiceState :=
  ⟨fun k => if k = key then some now else st.alertCooldown k⟩

/-- One fired event: the deduplication key of the triggered block and the
result of its createAlert call (none = persistence failure / null). -/
abbrev AlertEvent := Key × Option Alert

/-- Body shared by every triggering block of the two check functions:
`if (!this.isInCooldown(key)) { alerts.push(await this.createAlert(data)); this.setCooldown(key); }`. -/
def fireIfNotCooling (ok : AlertData → Bool) (st : AlertServiceState) (now : ℕ)
    (key : Key) (a : AlertData) : AlertServiceState × List AlertEvent :=
  if isInCooldown st now key then (st, [])
  else (setCooldown st now key, [(key, createAlert ok a)])

/-- stats argument of checkSystemThresholds (stats.cpu.usage,
stats.memory.usage; the other fields are not read by the function). -/
structure UsageStat where
  usage : ℚ

structure SystemStats where
  cpu : UsageStat
  memory : UsageStat

/-- CPU block of checkSystemThresholds: critical tier first, else the
warning tier. -/
def sysCpuCheck (ok : AlertData → Bool) (st : AlertServiceState) (now : ℕ)
    (stats : SystemStats) : AlertServiceState × List AlertEvent :=
  if thresholds.cpu.critical < stats.cpu.usage then
    fireIfNotCooling ok st now .sysCpuCritical
      { type := .critical, source := "threshold", metric := some "cpu",
        details := { currentValue := some stats.cpu.usage,
                     threshold := some thresholds.cpu.critical } }
  else if thresholds.cpu.warning < stats.cpu.usage then
    fireIfNotCooling ok st now .sysCpuWarning
      { type := .warning, source := "threshold", metric := some "cpu",
        details := { currentValue := some stats.cpu.usage,
                     threshold := some thresholds.cpu.warning } }
  else (st, [])

/-- Memory block of checkSystemThresholds: the source checks only the
critical cutoff for memory (there is no memory warning block). -/
def sysMemCheck (ok : AlertData → Bool) (st : AlertServiceState) (now : ℕ)
    (stats : SystemStats) : AlertServiceState × List AlertEvent :=
  if thresholds.memory.critical < stats.memory.usage then
    fireIfNotCooling ok st now .sysMemCritical
      { type := .critical, source := "threshold", metric := some "memory",
        details := { currentValue := some stats.memory.usage,
                     threshold := some thresholds.memory.critical } }
  else (st, [])

/-- checkSystemThresholds(stats): the CPU block followed by the memory
block, accumulating the pushed results in order. -/
def checkSystemThresholds (ok : AlertData → Bool) (st : AlertServiceState)
    (now : ℕ) (stats : SystemStats) : AlertServiceState × List AlertEvent :=
  let r1 := sysCpuCheck ok st now stats
  let r2 := sysMemCheck ok r1.1 now stats
  (r2.1, r1.2 ++ r2.2)

/-- process argument of checkProcessThresholds (fields the function reads). -/
structure ProcessInfo where
  pid : ℕ
  name : String
  cpu : ℚ

/-- mlAnalysis.anomaly. -/
structure AnomalyInfo where
  isAnomaly : Bool
  score : ℚ
  severity : String

/-- mlAnalysis argument; `anomaly` and `predictions` may each be absent. -/
structure MLAnalysis where
  anomaly : Option AnomalyInfo
  predictions : Option (List ℚ)

/-- High-CPU block of checkProcessThresholds (`process.cpu > 90`). -/
def procCpuCheck (ok : AlertData → Bool) (st : AlertServiceState) (now : ℕ)
    (process : ProcessInfo) : AlertServiceState × List AlertEvent :=
  if 90 < process.cpu then
    fireIfNotCooling ok st now (.procCpu process.pid)
      { type := .warning, source := "threshold",
        processId := some (toString process.pid),
        processName := some process.name, metric := some "cpu",
        details := { currentValue := some process.cpu, threshold := some 90 } }
  else (st, [])

/-- ML-anomaly block (`mlAnalysis && mlAnalysis.anomaly && mlAnalysis.anomaly.isAnomaly`). -/
def procAnomalyCheck (ok : AlertData → Bool) (st : AlertServiceState) (now : ℕ)
    (process : ProcessInfo) (mlAnalysis : Option MLAnalysis) :
    AlertServiceState × List AlertEvent :=
  match mlAnalysis with
  | none => (st, [])
  | some ml =>
    match ml.anomaly with
    | none => (st, [])
    | some anomaly =>
      if anomaly.isAnomaly then
        fireIfNotCooling ok st now (.procAnomaly process.pid)
          { type := if anomaly.severity = "critical" then .critical else .warning,
            source := "anomaly",
            processId := some (toString process.pid),
            processName := some process.name, metric := some "anomaly",
            details := { anomalyScore := some anomaly.score,
                         threshold := some thresholds.anomalyScore.warning },
            mlDetected := true, algorithm := some "Isolation Forest" }
      else (st, [])

/-- Prediction block (`mlAnalysis && mlAnalysis.predictions`, then mean of
the predictions compared against 85).  For an empty predictions array the
source computes NaN (0/0) and `NaN > 85` is false; in ℚ, 0/0 = 0 and the
comparison is likewise false. -/
def procPredictionCheck (ok : AlertData → Bool) (st : AlertServiceState) (now : ℕ)
    (process : ProcessInfo) (mlAnalysis : Option MLAnalysis) :
    AlertServiceState × List AlertEvent :=
  match mlAnalysis with
  | none => (st, [])
  | some ml =>
    match ml.predictions with
    | none => (st, [])
    | some predictions =>
      let avgPrediction := predictions.sum / (predictions.length : ℚ)
      if 85 < avgPrediction then
        fireIfNotCooling ok st now (.procPrediction process.pid)
          { type := .warning, source := "prediction",
            processId := some (toString process.pid),
            processName := some process.name, metric := some "cpu",
            details := { prediction := some avgPrediction,
                         currentValue := some process.cpu },
            mlDetected := true, algorithm := some "LSTM Neural Network" }
      else (st, [])

/-- checkProcessThresholds(process, mlAnalysis): the three blocks in
source order, accumulating the pushed results. -/
def checkProcessThresholds (ok : AlertData → Bool) (st : AlertServiceState)
    (now : ℕ) (process : ProcessInfo) (mlAnalysis : Option MLAnalysis) :
    AlertServiceState × List AlertEvent :=
  let r1 := procCpuCheck ok st now process
  let r2 := procAnomalyCheck ok r1.1 now process mlAnalysis
  let r3 := procPredictionCheck ok r2.1 now process mlAnalysis
  (r3.1, r1.2 ++ r2.2 ++ r3.2)

/-- Alerts array actually returned by the source check functions: the
createAlert results of the fired blocks, nulls included, in push order. -/
def alertsOf (evs : List AlertEvent) : List (Option Alert) :=
  evs.map Prod.snd

/-! ### Call traces over the alert service

A trace is a list of timestamped calls to the two check functions, each
with its own persistence oracle.  `runTrace` replays them against the
cooldown state and collects every fired event tagged with its call time. -/

inductive ACall
  | system (stats : SystemStats)
  | process (process : ProcessInfo) (mlAnalysis : Option MLAnalysis)

structure TraceStep where
  time : ℕ
  call : ACall
  ok : AlertData → Bool

def stepCall (s : TraceStep) (st : AlertServiceState) :
    AlertServiceState × List AlertEvent :=
  match s.call with
  | .system stats => checkSystemThresholds s.ok st s.time stats
  | .process p ml => checkProcessThresholds s.ok st s.time p ml

def runTrace : List TraceStep → AlertServiceState →
    AlertServiceState × List (ℕ × AlertEvent)
  | [], st => (st, [])
  | s :: rest, st =>
    let r := stepCall s st
    let rr := runTrace rest r.1
    (rr.1, r.2.map (fun e => (s.time, e)) ++ rr.2)

/-- Call times are nondecreasing and bounded below by the first argument
(Date.now() is monotone across successive calls). -/
def timesMonotone : ℕ → List TraceStep → Bool
  | _, [] => true
  | t, s :: rest => decide (t ≤ s.time) && timesMonotone s.time rest

/-- Two timestamped events are separated when, if they share a
deduplication key, the later one fired at least a full cooldown period
after the earlier one. -/
def separated (e1 e2 : ℕ × AlertEvent) : Prop :=
  e1.2.1 = e2.2.1 → e1.1 + cooldownPeriod ≤ e2.1

theorem setCooldown_apply (st : AlertServiceState) (now : ℕ) (key k : Key) :
    (setCooldown st now key).alertCooldown k
      = if k = key then some now else st.alertCooldown k := rfl

theorem isInCooldown_congr {st st' : AlertServiceState} (now : ℕ) (k : Key)
    (h : st.alertCooldown k = st'.alertCooldown k) :
    isInCooldown st now k = isInCooldown st' now k := by
  unfold isInCooldown
  rw [h]

/-- Fact bundle about one guarded block (or a sequential composition of
blocks) of a check function, at call time `now`, firing only keys from
`keys`: every fired event's key was not in cooldown before the call and
has its cooldown set to `now` after it, other keys' cooldown entries are
untouched, and no key fires twice. -/
def SegOK (seg : AlertServiceState → AlertServiceState × List AlertEvent)
    (now : ℕ) (keys : List Key) : Prop :=
  (∀ st e, e ∈ (seg st).2 →
      e.1 ∈ keys ∧ isInCooldown st now e.1 = false ∧
      (seg st).1.alertCooldown e.1 = some now) ∧
  (∀ st k, (∀ e ∈ (seg st).2, e.1 ≠ k) →
      (seg st).1.alertCooldown k = st.alertCooldown k) ∧
  (∀ st, ((seg st).2.map Prod.fst).Nodup)

theorem SegOK.mono {seg : AlertServiceState → AlertServiceState × List AlertEvent}
    {now : ℕ} {keys keys' : List Key} (hsub : ∀ k, k ∈ keys → k ∈ keys')
    (h : SegOK seg now keys) : SegOK seg now keys' := by
  refine ⟨fun st e he => ?_, h.2.1, h.2.2⟩
  obtain ⟨hk, hc, hs⟩ := h.1 st e he
  exact ⟨hsub _ hk, hc, hs⟩

theorem SegOK.skip (now : ℕ) (keys : List Key) :
    SegOK (fun st => (st, [])) now keys := by
  refine ⟨fun st e he => absurd he (List.not_mem_nil e), fun st k _ => rfl, fun st => ?_⟩
  simp

theorem SegOK.fire (ok : AlertData → Bool) (now : ℕ) (key : Key) (a : AlertData)
    (keys : List Key) (hk : key ∈ keys) :
    SegOK (fun st => fireIfNotCooling ok st now key a) now keys := by
  refine ⟨fun st e he => ?_, fun st k hne => ?_, fun st => ?_⟩
  · by_cases hcool : isInCooldown st now key = true
    · simp [fireIfNotCooling, hcool] at he
    · simp only [Bool.not_eq_true] at hcool
      simp only [fireIfNotCooling, hcool, Bool.false_eq_true, if_false,
        List.mem_singleton] at he
      subst he
      exact ⟨hk, hcool, by simp [fireIfNotCooling, hcool, setCooldown_apply]⟩
  · by_cases hcool : isInCooldown st now key = true
    · simp [fireIfNotCooling, hcool]
    · simp only [Bool.not_eq_true] at hcool
      have hkey : key ≠ k := by
        have := hne (key, createAlert ok a)
          (by simp [fireIfNotCooling, hcool])
        simpa using this
      simp [fireIfNotCooling, hcool, setCooldown_apply, Ne.symm hkey]
  · by_cases hcool : isInCooldown st now key = true
    · simp [fireIfNotCooling, hcool]
    · simp only [Bool.not_eq_true] at hcool
      simp [fireIfNotCooling, hcool]

theorem SegOK.ite {seg1 seg2 : AlertServiceState → AlertServiceState × List AlertEvent}
    {now : ℕ} {keys : List Key} (c : Prop) [Decidable c]
    (h1 : SegOK seg1 now keys) (h2 : SegOK seg2 now keys) :
    SegOK (fun st => if c then seg1 st else seg2 st) now keys := by
  by_cases hc : c
  · simpa [hc] using h1
  · simpa [hc] using h2

/-- Sequential composition of two blocks, threading the state and
appending the pushed results — the shape of the source check functions. -/
def seqSeg (seg1 seg2 : AlertServiceState → AlertServiceState × List AlertEvent) :
    AlertServiceState → AlertServiceState × List AlertEvent :=
  fun st =>
    let r1 := seg1 st
    let r2 := seg2 r1.1
    (r2.1, r1.2 ++ r2.2)

theorem SegOK.comp {seg1 seg2 : AlertServiceState → AlertServiceState × List AlertEvent}
    {now : ℕ} {keys1 keys2 : List Key}
    (h1 : SegOK seg1 now keys1) (h2 : SegOK seg2 now keys2)
    (hdisj : ∀ k, k ∈ keys1 → k ∉ keys2) :
    SegOK (seqSeg seg1 seg2) now (keys1 ++ keys2) := by
  obtain ⟨m1, o1, n1⟩ := h1
  obtain ⟨m2, o2, n2⟩ := h2
  refine ⟨fun st e he => ?_, fun st k hne => ?_, fun st => ?_⟩
  · simp only [seqSeg, List.mem_append] at he
    rcases he with he | he
    · obtain ⟨hk, hc, hs⟩ := m1 st e he
      refine ⟨List.mem_append_left _ hk, hc, ?_⟩
      have hnot2 : ∀ e2 ∈ (seg2 (seg1 st).1).2, e2.1 ≠ e.1 := by
        intro e2 he2 hkey
        exact (hdisj e.1 hk) (hkey ▸ (m2 _ e2 he2).1)
      have := o2 (seg1 st).1 e.1 hnot2
      simpa [seqSeg] using this.trans hs
    · obtain ⟨hk, hc, hs⟩ := m2 (seg1 st).1 e he
      have hk1 : e.1 ∉ keys1 := fun h => (hdisj e.1 h) hk
      have hnot1 : ∀ e1 ∈ (seg1 st).2, e1.1 ≠ e.1 := by
        intro e1 he1 hkey
        exact hk1 (hkey ▸ (m1 st e1 he1).1)
      have hagree := o1 st e.1 hnot1
      refine ⟨List.mem_append_right _ hk, ?_, by simpa [seqSeg] using hs⟩
      rw [← hc]
      exact isInCooldown_congr now e.1 hagree.symm
  · simp only [seqSeg, List.mem_append] at hne
    have hne1 : ∀ e ∈ (seg1 st).2, e.1 ≠ k := fun e he => hne e (Or.inl he)
    have hne2 : ∀ e ∈ (seg2 (seg1 st).1).2, e.1 ≠ k := fun e he => hne e (Or.inr he)
    simp only [seqSeg]
    rw [o2 _ _ hne2, o1 _ _ hne1]
  · simp only [seqSeg, List.map_append]
    rw [List.nodup_append]
    refine ⟨n1 st, n2 (seg1 st).1, ?_⟩
    intro x hx1 hx2
    simp only [List.mem_map] at hx1 hx2
    obtain ⟨e1, he1, rfl⟩ := hx1
    obtain ⟨e2, he2, hkey⟩ := hx2
    exact (hdisj _ (m1 st e1 he1).1) (hkey ▸ (m2 _ e2 he2).1)

theorem checkSystemThresholds_eq_seq (ok : AlertData → Bool)
    (st : AlertServiceState) (now : ℕ) (stats : SystemStats) :
    checkSystemThresholds ok st now stats
      = seqSeg (fun s => sysCpuCheck ok s now stats)
          (fun s => sysMemCheck ok s now stats) st := rfl

theorem checkProcessThresholds_eq_seq (ok : AlertData → Bool)
    (st : AlertServiceState) (now : ℕ) (p : ProcessInfo) (ml : Option MLAnalysis) :
    checkProcessThresholds ok st now p ml
      = seqSeg (seqSeg (fun s => procCpuCheck ok s now p)
          (fun s => procAnomalyCheck ok s now p ml))
          (fun s => procPredictionCheck ok s now p ml) st := rfl

theorem sysCpuCheck_segOK (ok : AlertData → Bool) (now : ℕ) (stats : SystemStats) :
    SegOK (fun st => sysCpuCheck ok st now stats) now
      [Key.sysCpuCritical, Key.sysCpuWarning] := by
  unfold sysCpuCheck
  exact SegOK.ite _ (SegOK.fire ok now _ _ _ (by simp))
    (SegOK.ite _ (SegOK.fire ok now _ _ _ (by simp)) (SegOK.skip now _))

theorem sysMemCheck_segOK (ok : AlertData → Bool) (now : ℕ) (stats : SystemStats) :
    SegOK (fun st => sysMemCheck ok st now stats) now [Key.sysMemCritical] := by
  unfold sysMemCheck
  exact SegOK.ite _ (SegOK.fire ok now _ _ _ (by simp)) (SegOK.skip now _)

theorem procCpuCheck_segOK (ok : AlertData → Bool) (now : ℕ) (p : ProcessInfo) :
    SegOK (fun st => procCpuCheck ok st now p) now [Key.procCpu p.pid] := by
  unfold procCpuCheck
  exact SegOK.ite _ (SegOK.fire ok now _ _ _ (by simp)) (SegOK.skip now _)

theorem procAnomalyCheck_segOK (ok : AlertData → Bool) (now : ℕ) (p : ProcessInfo)
    (ml : Option MLAnalysis) :
    SegOK (fun st => procAnomalyCheck ok st now p ml) now [Key.procAnomaly p.pid] := by
  unfold procAnomalyCheck
  cases ml with
  | none => exact SegOK.skip now _
  | some m =>
    obtain ⟨ma, mp⟩ := m
    cases ma with
    | none => exact SegOK.skip now _
    | some a =>
      exact SegOK.ite _ (SegOK.fire ok now _ _ _ (List.mem_singleton_self _))
        (SegOK.skip now _)

theorem procPredictionCheck_segOK (ok : AlertData → Bool) (now : ℕ) (p : ProcessInfo)
    (ml : Option MLAnalysis) :
    SegOK (fun st => procPredictionCheck ok st now p ml) now
      [Key.procPrediction p.pid] := by
  unfold procPredictionCheck
  cases ml with
  | none => exact SegOK.skip now _
  | some m =>
    obtain ⟨ma, mp⟩ := m
    cases mp with
    | none => exact SegOK.skip now _
    | some ps =>
      exact SegOK.ite _ (SegOK.fire ok now _ _ _ (List.mem_singleton_self _))
        (SegOK.skip now _)

theorem checkSystemThresholds_segOK (ok : AlertData → Bool) (now : ℕ)
    (stats : SystemStats) :
    SegOK (fun st => checkSystemThresholds ok st now stats) now
      [Key.sysCpuCritical, Key.sysCpuWarning, Key.sysMemCritical] := by
  have h := SegOK.comp (sysCpuCheck_segOK ok now stats) (sysMemCheck_segOK ok now stats)
    (by decide)
  exact h

theorem checkProcessThresholds_segOK (ok : AlertData → Bool) (now : ℕ)
    (p : ProcessInfo) (ml : Option MLAnalysis) :
    SegOK (fun st => checkProcessThresholds ok st now p ml) now
      [Key.procCpu p.pid, Key.procAnomaly p.pid, Key.procPrediction p.pid] := by
  have h12 := SegOK.comp (procCpuCheck_segOK ok now p)
    (procAnomalyCheck_segOK ok now p ml) (by intro k hk hk'; simp_all)
  have h := SegOK.comp h12 (procPredictionCheck_segOK ok now p ml)
    (by intro k hk hk'; simp_all)
  exact h

/-- Keys a call can possibly fire. -/
def callKeys : ACall → List Key
  | .system _ => [Key.sysCpuCritical, Key.sysCpuWarning, Key.sysMemCritical]
  | .process p _ => [Key.procCpu p.pid, Key.procAnomaly p.pid, Key.procPrediction p.pid]

theorem stepCall_segOK (s : TraceStep) :
    SegOK (stepCall s) s.time (callKeys s.call) := by
  obtain ⟨t, c, ok⟩ := s
  cases c with
  | system stats => exact checkSystemThresholds_segOK ok t stats
  | process p ml => exact checkProcessThresholds_segOK ok t p ml

/-- Invariant tying the cooldown map to the event history: every recorded
cooldown time is the time of the latest event for that key and is bounded
by the clock `T`; keys without a cooldown entry have never fired; and the
accumulated events are pairwise separated by the cooldown period. -/
def Inv (T : ℕ) (st : AlertServiceState) (evs : List (ℕ × AlertEvent)) : Prop :=
  (∀ k t, st.alertCooldown k = some t → t ≤ T ∧ ∀ e ∈ evs, e.2.1 = k → e.1 ≤ t) ∧
  (∀ k, st.alertCooldown k = none → ∀ e ∈ evs, e.2.1 ≠ k) ∧
  evs.Pairwise separated

theorem Inv.init : Inv 0 initialAlertState [] := by
  refine ⟨fun k t h => ?_, fun k _ e he => absurd he (List.not_mem_nil e),
    List.Pairwise.nil⟩
  simp [initialAlertState] at h

theorem Inv.step {T now : ℕ} {st : AlertServiceState}
    {evs : List (ℕ × AlertEvent)}
    {seg : AlertServiceState → AlertServiceState × List AlertEvent} {keys : List Key}
    (hInv : Inv T st evs) (hT : T ≤ now) (hseg : SegOK seg now keys) :
    Inv now (seg st).1 (evs ++ (seg st).2.map (fun e => (now, e))) := by
  obtain ⟨hsome, hnone, hpw⟩ := hInv
  obtain ⟨hmem, hother, hnodup⟩ := hseg
  refine ⟨?_, ?_, ?_⟩
  · intro k t hkt
    by_cases hfired : ∃ e0 ∈ (seg st).2, e0.1 = k
    · obtain ⟨e0, he0, hke⟩ := hfired
      have h2 := (hmem st e0 he0).2.2
      rw [hke, hkt] at h2
      have ht : t = now := Option.some.inj h2
      subst ht
      refine ⟨le_refl t, ?_⟩
      intro e he hkey
      rcases List.mem_append.mp he with hold | hnew
      · cases hck : st.alertCooldown k with
        | none => exact absurd hkey (hnone k hck e hold)
        | some t0 =>
          have h0 := hsome k t0 hck
          exact le_trans (h0.2 e hold hkey) (le_trans h0.1 hT)
      · simp only [List.mem_map] at hnew
        obtain ⟨e1, _, rfl⟩ := hnew
        exact le_refl t
    · push_neg at hfired
      have hunch := hother st k hfired
      rw [hunch] at hkt
      obtain ⟨htT, hev⟩ := hsome k t hkt
      refine ⟨le_trans htT hT, ?_⟩
      intro e he hkey
      rcases List.mem_append.mp he with hold | hnew
      · exact hev e hold hkey
      · simp only [List.mem_map] at hnew
        obtain ⟨e1, he1, rfl⟩ := hnew
        exact absurd hkey (hfired e1 he1)
  · intro k hk
    have hnf : ∀ e0 ∈ (seg st).2, e0.1 ≠ k := by
      intro e0 he0 hkey
      have h2 := (hmem st e0 he0).2.2
      rw [hkey, hk] at h2
      exact Option.noConfusion h2
    have hunch := hother st k hnf
    rw [hunch] at hk
    intro e he
    rcases List.mem_append.mp he with hold | hnew
    · exact hnone k hk e hold
    · simp only [List.mem_map] at hnew
      obtain ⟨e1, he1, rfl⟩ := hnew
      exact hnf e1 he1
  · rw [List.pairwise_append]
    refine ⟨hpw, ?_, ?_⟩
    · rw [List.pairwise_map]
      have hne : ((seg st).2).Pairwise (fun a b => a.1 ≠ b.1) := by
        have hnd := hnodup st
        unfold List.Nodup at hnd
        rw [List.pairwise_map] at hnd
        exact hnd
      exact hne.imp (fun hab hkey => absurd hkey hab)
    · intro e1 he1 e2 he2
      simp only [List.mem_map] at he2
      obtain ⟨e0, he0, rfl⟩ := he2
      simp only [separated]
      intro hkey
      have hc := (hmem st e0 he0).2.1
      cases hck : st.alertCooldown e0.1 with
      | none => exact absurd hkey (hnone _ hck e1 he1)
      | some t0 =>
        have hsep : ¬ (now - t0 < cooldownPeriod) := by
          unfold isInCooldown at hc
          rw [hck] at hc
          simpa using hc
        obtain ⟨ht0T, hev⟩ := hsome _ t0 hck
        have he1t : e1.1 ≤ t0 := hev e1 he1 hkey
        have ht0now : t0 ≤ now := le_trans ht0T hT
        show e1.1 + cooldownPeriod ≤ now
        omega

theorem runTrace_pairwise (trace : List TraceStep) :
    ∀ (T : ℕ) (st : AlertServiceState) (evs : List (ℕ × AlertEvent)),
    Inv T st evs → timesMonotone T trace = true →
    (evs ++ (runTrace trace st).2).Pairwise separated := by
  induction trace with
  | nil =>
    intro T st evs hInv _
    simpa [runTrace] using hInv.2.2
  | cons s rest ih =>
    intro T st evs hInv hmono
    simp only [timesMonotone, Bool.and_eq_true, decide_eq_true_eq] at hmono
    obtain ⟨hT, hmono'⟩ := hmono
    have hstep := Inv.step hInv hT (stepCall_segOK s)
    have hres := ih s.time (stepCall s st).1 _ hstep hmono'
    simpa [runTrace, List.append_assoc] using hres

/-! ### Exact alert counts of a single call -/

/-- Number of alerts a call pushed under a given deduplication key. -/
def countKey (k : Key) (evs : List AlertEvent) : ℕ :=
  (evs.filter (fun e => e.1 = k)).length

theorem countKey_append (k : Key) (l1 l2 : List AlertEvent) :
    countKey k (l1 ++ l2) = countKey k l1 + countKey k l2 := by
  simp [countKey, List.filter_append]

theorem countKey_fire (ok : AlertData → Bool) (st : AlertServiceState) (now : ℕ)
    (key : Key) (a : AlertData) (k : Key) :
    countKey k (fireIfNotCooling ok st now key a).2
      = if k = key ∧ isInCooldown st now key = false then 1 else 0 := by
  by_cases hcool : isInCooldown st now key = true
  · simp [fireIfNotCooling, hcool, countKey]
  · simp only [Bool.not_eq_true] at hcool
    by_cases hk : k = key
    · subst hk
      simp [fireIfNotCooling, hcool, countKey]
    · simp [fireIfNotCooling, hcool, countKey, hk, Ne.symm hk]

theorem SegOK.countKey_eq_zero
    {seg : AlertServiceState → AlertServiceState × List AlertEvent}
    {now : ℕ} {keys : List Key} (h : SegOK seg now keys) {k : Key}
    (hk : k ∉ keys) (st : AlertServiceState) :
    countKey k (seg st).2 = 0 := by
  unfold countKey
  rw [List.length_eq_zero, List.filter_eq_nil_iff]
  intro e he
  have := (h.1 st e he).1
  simp only [decide_eq_true_eq]
  intro hkey
  exact hk (hkey ▸ this)

theorem SegOK.isInCooldown_eq
    {seg : AlertServiceState → AlertServiceState × List AlertEvent}
    {now : ℕ} {keys : List Key} (h : SegOK seg now keys) {k : Key}
    (hk : k ∉ keys) (st : AlertServiceState) (t : ℕ) :
    isInCooldown (seg st).1 t k = isInCooldown st t k := by
  refine isInCooldown_congr t k ?_
  exact h.2.1 st k (fun e he hkey => hk (hkey ▸ (h.1 st e he).1))

/-- Triggering condition of each system-check key, read off the source
guards (the warning tier fires only when the critical tier did not). -/
def sysTrigger (stats : SystemStats) : Key → Bool
  | .sysCpuCritical => decide (thresholds.cpu.critical < stats.cpu.usage)
  | .sysCpuWarning =>
      !(decide (thresholds.cpu.critical < stats.cpu.usage))
        && decide (thresholds.cpu.warning < stats.cpu.usage)
  | .sysMemCritical => decide (thresholds.memory.critical < stats.memory.usage)
  | _ => false

def anomalyTriggered : Option MLAnalysis → Bool
  | some m =>
    match m.anomaly with
    | some a => a.isAnomaly
    | none => false
  | none => false

def predictionTriggered : Option MLAnalysis → Bool
  | some m =>
    match m.predictions with
    | some predictions => decide (85 < predictions.sum / (predictions.length : ℚ))
    | none => false
  | none => false

/-- Triggering condition of each process-check key. -/
def procTrigger (process : ProcessInfo) (ml : Option MLAnalysis) : Key → Bool
  | .procCpu p => decide (p = process.pid) && decide (90 < process.cpu)
  | .procAnomaly p => decide (p = process.pid) && anomalyTriggered ml
  | .procPrediction p => decide (p = process.pid) && predictionTriggered ml
  | _ => false

theorem checkSystemThresholds_countKey (ok : AlertData → Bool)
    (st : AlertServiceState) (now : ℕ) (stats : SystemStats) (k : Key) :
    countKey k (checkSystemThresholds ok st now stats).2
      = if sysTrigger stats k = true ∧ isInCooldown st now k = false
        then 1 else 0 := by
  rw [checkSystemThresholds_eq_seq]
  have hcpu := sysCpuCheck_segOK ok now stats
  have hmem := sysMemCheck_segOK ok now stats
  have hmemstate : ∀ t, isInCooldown (sysCpuCheck ok st now stats).1 t Key.sysMemCritical
      = isInCooldown st t Key.sysMemCritical :=
    fun t => hcpu.isInCooldown_eq (by decide) st t
  cases k with
  | sysCpuCritical =>
    rw [show countKey Key.sysCpuCritical (seqSeg (fun s => sysCpuCheck ok s now stats)
        (fun s => sysMemCheck ok s now stats) st).2
      = countKey Key.sysCpuCritical (sysCpuCheck ok st now stats).2
        + countKey Key.sysCpuCritical (sysMemCheck ok (sysCpuCheck ok st now stats).1 now stats).2
      from countKey_append _ _ _]
    rw [hmem.countKey_eq_zero (by decide) _]
    unfold sysCpuCheck sysTrigger
    by_cases h1 : thresholds.cpu.critical < stats.cpu.usage
    · simp [h1, countKey_fire]
    · by_cases h2 : thresholds.cpu.warning < stats.cpu.usage
      · simp [h1, h2, countKey_fire]
      · simp [h1, h2, countKey]
  | sysCpuWarning =>
    rw [show countKey Key.sysCpuWarning (seqSeg (fun s => sysCpuCheck ok s now stats)
        (fun s => sysMemCheck ok s now stats) st).2
      = countKey Key.sysCpuWarning (sysCpuCheck ok st now stats).2
        + countKey Key.sysCpuWarning (sysMemCheck ok (sysCpuCheck ok st now stats).1 now stats).2
      from countKey_append _ _ _]
    rw [hmem.countKey_eq_zero (by decide) _]
    unfold sysCpuCheck sysTrigger
    by_cases h1 : thresholds.cpu.critical < stats.cpu.usage
    · simp [h1, countKey_fire]
    · by_cases h2 : thresholds.cpu.warning < stats.cpu.usage
      · simp [h1, h2, countKey_fire]
      · simp [h1, h2, countKey]
  | sysMemCritical =>
    rw [show countKey Key.sysMemCritical (seqSeg (fun s => sysCpuCheck ok s now stats)
        (fun s => sysMemCheck ok s now stats) st).2
      = countKey Key.sysMemCritical (sysCpuCheck ok st now stats).2
        + countKey Key.sysMemCritical (sysMemCheck ok (sysCpuCheck ok st now stats).1 now stats).2
      from countKey_append _ _ _]
    rw [hcpu.countKey_eq_zero (by decide) st]
    unfold sysMemCheck sysTrigger
    by_cases h3 : thresholds.memory.critical < stats.memory.usage
    · simp [h3, countKey_fire, hmemstate]
    · simp [h3, countKey]
  | procCpu p =>
    have h := SegOK.comp hcpu hmem (by decide)
    rw [h.countKey_eq_zero (by simp) st]
    simp [sysTrigger]
  | procAnomaly p =>
    have h := SegOK.comp hcpu hmem (by decide)
    rw [h.countKey_eq_zero (by simp) st]
    simp [sysTrigger]
  | procPrediction p =>
    have h := SegOK.comp hcpu hmem (by decide)
    rw [h.countKey_eq_zero (by simp) st]
    simp [sysTrigger]

theorem checkProcessThresholds_countKey (ok : AlertData → Bool)
    (st : AlertServiceState) (now : ℕ) (process : ProcessInfo)
    (ml : Option MLAnalysis) (k : Key) :
    countKey k (checkProcessThresholds ok st now process ml).2
      = if procTrigger process ml k = true ∧ isInCooldown st now k = false
        then 1 else 0 := by
  rw [checkProcessThresholds_eq_seq]
  have hb1 := procCpuCheck_segOK ok now process
  have hb2 := procAnomalyCheck_segOK ok now process ml
  have hb3 := procPredictionCheck_segOK ok now process ml
  have hb12 := SegOK.comp hb1 hb2 (by intro x hx hx'; simp_all)
  have hall := SegOK.comp hb12 hb3 (by intro x hx hx'; simp_all)
  simp only [seqSeg]
  rw [countKey_append, countKey_append]
  set st1 := (procCpuCheck ok st now process).1 with hst1
  set st2 := (procAnomalyCheck ok st1 now process ml).1 with hst2
  have hcool1 : ∀ k', k' ≠ Key.procCpu process.pid → ∀ t,
      isInCooldown st1 t k' = isInCooldown st t k' := by
    intro k' hk' t
    exact hb1.isInCooldown_eq (by simpa using hk') st t
  have hcool2 : ∀ k', k' ≠ Key.procAnomaly process.pid → ∀ t,
      isInCooldown st2 t k' = isInCooldown st1 t k' := by
    intro k' hk' t
    exact hb2.isInCooldown_eq (by simpa using hk') st1 t
  cases k with
  | sysCpuCritical =>
    rw [hb1.countKey_eq_zero (by simp) st, hb2.countKey_eq_zero (by simp) st1,
      hb3.countKey_eq_zero (by simp) st2]
    simp [procTrigger]
  | sysCpuWarning =>
    rw [hb1.countKey_eq_zero (by simp) st, hb2.countKey_eq_zero (by simp) st1,
      hb3.countKey_eq_zero (by simp) st2]
    simp [procTrigger]
  | sysMemCritical =>
    rw [hb1.countKey_eq_zero (by simp) st, hb2.countKey_eq_zero (by simp) st1,
      hb3.countKey_eq_zero (by simp) st2]
    simp [procTrigger]
  | procCpu p =>
    rw [hb2.countKey_eq_zero (by simp) st1, hb3.countKey_eq_zero (by simp) st2]
    by_cases hpid : p = process.pid
    · subst hpid
      unfold procCpuCheck
      by_cases h90 : 90 < process.cpu
      · simp [h90, countKey_fire, procTrigger]
      · simp [h90, countKey, procTrigger]
    · rw [hb1.countKey_eq_zero (by simp [hpid]) st]
      simp [procTrigger, hpid]
  | procAnomaly p =>
    rw [hb1.countKey_eq_zero (by simp) st, hb3.countKey_eq_zero (by simp) st2]
    by_cases hpid : p = process.pid
    · subst hpid
      unfold procAnomalyCheck
      cases ml with
      | none => simp [countKey, procTrigger, anomalyTriggered]
      | some m =>
        obtain ⟨ma, mp⟩ := m
        cases ma with
        | none => simp [countKey, procTrigger, anomalyTriggered]
        | some a =>
          by_cases hiso : a.isAnomaly = true
          · simp [hiso, countKey_fire, procTrigger, anomalyTriggered]
            rw [hcool1 (Key.procAnomaly process.pid) (by simp) now]
          · simp only [Bool.not_eq_true] at hiso
            simp [hiso, countKey, procTrigger, anomalyTriggered]
    · rw [hb2.countKey_eq_zero (by simp [hpid]) st1]
      simp [procTrigger, hpid]
  | procPrediction p =>
    rw [hb1.countKey_eq_zero (by simp) st, hb2.countKey_eq_zero (by simp) st1]
    by_cases hpid : p = process.pid
    · subst hpid
      unfold procPredictionCheck
      cases ml with
      | none => simp [countKey, procTrigger, predictionTriggered]
      | some m =>
        obtain ⟨ma, mp⟩ := m
        cases mp with
        | none => simp [countKey, procTrigger, predictionTriggered]
        | some ps =>
          by_cases havg : 85 < ps.sum / (ps.length : ℚ)
          · simp [havg, countKey_fire, procTrigger, predictionTriggered]
            rw [hcool2 (Key.procPrediction process.pid) (by simp) now,
              hcool1 (Key.procPrediction process.pid) (by simp) now]
          · simp [havg, countKey, procTrigger, predictionTriggered]
    · rw [hb3.countKey_eq_zero (by simp [hpid]) st2]
      simp [procTrigger, hpid]

/-! ### Persistence-failure behaviour (for claim C10) -/

theorem fire_snd_none (st : AlertServiceState) (now : ℕ) (key : Key)
    (a : AlertData) (e : AlertEvent)
    (he : e ∈ (fireIfNotCooling (fun _ => false) st now key a).2) : e.2 = none := by
  by_cases hcool : isInCooldown st now key = true
  · simp [fireIfNotCooling, hcool] at he
  · simp only [Bool.not_eq_true] at hcool
    simp [fireIfNotCooling, hcool, createAlert] at he
    rw [he]

theorem checkSystemThresholds_snd_none (st : AlertServiceState) (now : ℕ)
    (stats : SystemStats) (e : AlertEvent)
    (he : e ∈ (checkSystemThresholds (fun _ => false) st now stats).2) :
    e.2 = none := by
  rw [checkSystemThresholds_eq_seq] at he
  simp only [seqSeg, List.mem_append] at he
  rcases he with he | he
  · unfold sysCpuCheck at he
    split_ifs at he
    · exact fire_snd_none _ _ _ _ _ he
    · exact fire_snd_none _ _ _ _ _ he
    · simp at he
  · unfold sysMemCheck at he
    split_ifs at he
    · exact fire_snd_none _ _ _ _ _ he
    · simp at he

theorem checkProcessThresholds_snd_none (st : AlertServiceState) (now : ℕ)
    (p : ProcessInfo) (ml : Option MLAnalysis) (e : AlertEvent)
    (he : e ∈ (checkProcessThresholds (fun _ => false) st now p ml).2) :
    e.2 = none := by
  rw [checkProcessThresholds_eq_seq] at he
  simp only [seqSeg, List.mem_append] at he
  rcases he with (he | he) | he
  · unfold procCpuCheck at he
    split_ifs at he
    · exact fire_snd_none _ _ _ _ _ he
    · simp at he
  · unfold procAnomalyCheck at he
    cases ml with
    | none => simp at he
    | some m =>
      obtain ⟨ma, mp⟩ := m
      cases ma with
      | none => simp at he
      | some a =>
        simp only [] at he
        split_ifs at he
        · exact fire_snd_none _ _ _ _ _ he
        · exact fire_snd_none _ _ _ _ _ he
        · exact absurd he (List.not_mem_nil e)
  · unfold procPredictionCheck at he
    cases ml with
    | none => simp at he
    | some m =>
      obtain ⟨ma, mp⟩ := m
      cases mp with
      | none => simp at he
      | some ps =>
        simp only [] at he
        split_ifs at he
        · exact fire_snd_none _ _ _ _ _ he
        · exact absurd he (List.not_mem_nil e)

/-! ### Claim theorems about the AlertService -/

/-- C1.  Cooldown discipline: (i) along any monotonically timestamped trace
of checkSystemThresholds / checkProcessThresholds calls starting from a
fresh service, any two alert-creation events for the same deduplication
key are at least cooldownPeriod (60000 ms) apart — so within a cooldown
window at most one alert is created per key no matter how often the
condition is observed; (ii)/(iii) a single call creates exactly one alert
for a key when the key's triggering condition holds and the key is not in
cooldown (in particular exactly one more after the cooldown has elapsed),
and zero alerts otherwise. -/
theorem claim_C1_cooldown_dedup :
    (∀ trace : List TraceStep, timesMonotone 0 trace = true →
        (runTrace trace initialAlertState).2.Pairwise separated)
    ∧ (∀ (ok : AlertData → Bool) (st : AlertServiceState) (now : ℕ)
          (stats : SystemStats) (k : Key),
        countKey k (checkSystemThresholds ok st now stats).2
          = if sysTrigger stats k = true ∧ isInCooldown st now k = false
            then 1 else 0)
    ∧ (∀ (ok : AlertData → Bool) (st : AlertServiceState) (now : ℕ)
          (process : ProcessInfo) (ml : Option MLAnalysis) (k : Key),
        countKey k (checkProcessThresholds ok st now process ml).2
          = if procTrigger process ml k = true ∧ isInCooldown st now k = false
            then 1 else 0) := by
  refine ⟨fun trace hmono => ?_, checkSystemThresholds_countKey,
    checkProcessThresholds_countKey⟩
  have h := runTrace_pairwise trace 0 initialAlertState [] Inv.init hmono
  simpa using h

/-- Witness trace for C1: the same critical-CPU condition observed twice,
30 s apart (inside one cooldown window). -/
def wTrace : List TraceStep :=
  [⟨0, ACall.system ⟨⟨96⟩, ⟨50⟩⟩, fun _ => true⟩,
   ⟨30000, ACall.system ⟨⟨96⟩, ⟨50⟩⟩, fun _ => true⟩]

/-- Witness for C1 at the concrete trace wTrace. -/
theorem claim_C1_cooldown_dedup_witness :
    timesMonotone 0 wTrace = true
      ∧ (runTrace wTrace initialAlertState).2.Pairwise separated :=
  ⟨by decide, claim_C1_cooldown_dedup.1 wTrace (by decide)⟩

/-- C2 counterexample: memory usage 80 is strictly above the warning
cutoff 75 and below the critical cutoff 90, the service is fresh (nothing
is in cooldown), yet checkSystemThresholds emits no alert at all — the
source has no memory warning block. -/
theorem claim_C2_counterexample :
    thresholds.memory.warning < (80 : ℚ) ∧ (80 : ℚ) ≤ thresholds.memory.critical
      ∧ (checkSystemThresholds (fun _ => true) initialAlertState 0
          ⟨⟨50⟩, ⟨80⟩⟩).2 = [] := by
  refine ⟨by norm_num [thresholds], by norm_num [thresholds], ?_⟩
  decide

/-- C2 (amended).  checkSystemThresholds checks memory only against the
critical cutoff 90: whenever memory usage is at most the critical cutoff —
in particular in the whole band (75, 90] — no memory alert of any tier is
emitted (every emitted alert is a cpu one); the warning tier exists only
for cpu. -/
theorem claim_C2_memory_only_critical (ok : AlertData → Bool)
    (st : AlertServiceState) (now : ℕ) (stats : SystemStats)
    (hmem : stats.memory.usage ≤ thresholds.memory.critical) :
    ∀ e ∈ (checkSystemThresholds ok st now stats).2,
      e.1 = Key.sysCpuCritical ∨ e.1 = Key.sysCpuWarning := by
  intro e he
  rw [checkSystemThresholds_eq_seq] at he
  simp only [seqSeg, List.mem_append] at he
  rcases he with he | he
  · have h := ((sysCpuCheck_segOK ok now stats).1 st e he).1
    simpa using h
  · exfalso
    unfold sysMemCheck at he
    rw [if_neg (not_lt.mpr hmem)] at he
    simp at he

/-- Witness for the amended C2 at memory usage 80. -/
theorem claim_C2_memory_only_critical_witness :
    (⟨⟨50⟩, ⟨80⟩⟩ : SystemStats).memory.usage ≤ thresholds.memory.critical
      ∧ ∀ e ∈ (checkSystemThresholds (fun _ => true) initialAlertState 0
            ⟨⟨50⟩, ⟨80⟩⟩).2,
          e.1 = Key.sysCpuCritical ∨ e.1 = Key.sysCpuWarning :=
  ⟨by norm_num [thresholds],
   claim_C2_memory_only_critical _ _ _ _ (by norm_num [thresholds])⟩

/-- C10.  When alert persistence fails (createAlert returns null), each
triggered block of either check function still records the cooldown for
its key (set to the call time), and the null is pushed onto the returned
alerts array rather than omitted. -/
theorem claim_C10_persist_failure :
    (∀ (st : AlertServiceState) (now : ℕ) (stats : SystemStats) (e : AlertEvent),
        e ∈ (checkSystemThresholds (fun _ => false) st now stats).2 →
        e.2 = none
          ∧ (checkSystemThresholds (fun _ => false) st now stats).1.alertCooldown e.1
              = some now
          ∧ none ∈ alertsOf (checkSystemThresholds (fun _ => false) st now stats).2)
    ∧ (∀ (st : AlertServiceState) (now : ℕ) (p : ProcessInfo)
          (ml : Option MLAnalysis) (e : AlertEvent),
        e ∈ (checkProcessThresholds (fun _ => false) st now p ml).2 →
        e.2 = none
          ∧ (checkProcessThresholds (fun _ => false) st now p ml).1.alertCooldown e.1
              = some now
          ∧ none ∈ alertsOf (checkProcessThresholds (fun _ => false) st now p ml).2) := by
  constructor
  · intro st now stats e he
    have hnone := checkSystemThresholds_snd_none st now stats e he
    have hset := ((checkSystemThresholds_segOK (fun _ => false) now stats).1 st e he).2.2
    refine ⟨hnone, hset, ?_⟩
    rw [← hnone]
    exact List.mem_map_of_mem Prod.snd he
  · intro st now p ml e he
    have hnone := checkProcessThresholds_snd_none st now p ml e he
    have hset := ((checkProcessThresholds_segOK (fun _ => false) now p ml).1 st e he).2.2
    refine ⟨hnone, hset, ?_⟩
    rw [← hnone]
    exact List.mem_map_of_mem Prod.snd he

/-- Witness for C10: critical CPU at 96 with failing persistence — the
event for the system-cpu-critical key carries null, yet the cooldown is
set to the call time 5. -/
theorem claim_C10_persist_failure_witness :
    (Key.sysCpuCritical, (none : Option Alert))
        ∈ (checkSystemThresholds (fun _ => false) initialAlertState 5
            ⟨⟨96⟩, ⟨50⟩⟩).2
      ∧ ((none : Option Alert) = none
          ∧ (checkSystemThresholds (fun _ => false) initialAlertState 5
              ⟨⟨96⟩, ⟨50⟩⟩).1.alertCooldown Key.sysCpuCritical = some 5
          ∧ none ∈ alertsOf (checkSystemThresholds (fun _ => false)
              initialAlertState 5 ⟨⟨96⟩, ⟨50⟩⟩).2) :=
  ⟨by decide, claim_C10_persist_failure.1 initialAlertState 5 ⟨⟨96⟩, ⟨50⟩⟩
    (Key.sysCpuCritical, none) (by decide)⟩

/-! ### Claim theorems about the history buffer and the preprocessor -/

/-- C6.  After any sequence of storeMetrics calls for one processId
(starting from the fresh empty buffer), the buffer is exactly the
most recently appended snapshots in oldest-first order — the suffix of
the appended sequence that fits the cap — and in particular its length
never exceeds the configured cap (maxHistorySize, default 100). -/
theorem claim_C6_history_bounded_fifo {α : Type _} (cap : ℕ) (snaps : List α) :
    storeMetricsRun cap snaps = snaps.drop (snaps.length - cap)
      ∧ (storeMetricsRun cap snaps).length ≤ cap := by
  have h : storeMetricsRun cap snaps = snaps.drop (snaps.length - cap) := by
    have haux := storeMetricsRun_eq_drop_aux cap snaps []
    simpa [storeMetricsRun] using haux
  refine ⟨h, ?_⟩
  rw [h, List.length_drop]
  omega

/-- C7.  normalize followed by denormalize on the same feature name
reproduces the input list exactly (ℚ models the float arithmetic; the
constant-series case is covered because the recorded range is floored
to 1 there and the recorded range is never zero). -/
theorem claim_C7_normalize_roundtrip (dp : DataPreprocessor) (values : List ℚ)
    (key : String) (_hne : values ≠ []) :
    DataPreprocessor.denormalize (dp.normalize values key).1
      (dp.normalize values key).2 key = Except.ok values := by
  unfold DataPreprocessor.normalize DataPreprocessor.denormalize
  set mn := listMin values with hmn
  set r := (if listMax values - mn = 0 then 1 else listMax values - mn) with hrdef
  have hr : r ≠ 0 := by
    rw [hrdef]
    split_ifs with h0
    · exact one_ne_zero
    · exact h0
  simp only [List.lookup_cons_self]
  rw [List.map_map]
  have hfun : ((fun val => val * r + mn) ∘ (fun val => (val - mn) / r)) = id := by
    funext v
    simp only [Function.comp_apply, id_eq]
    rw [div_mul_cancel₀ _ hr, sub_add_cancel]
  rw [hfun, List.map_id]

/-- Witness for C7 on the degenerate constant series [5, 5, 5] (range
floored to 1). -/
theorem claim_C7_normalize_roundtrip_witness :
    ([(5 : ℚ), 5, 5] ≠ [])
      ∧ DataPreprocessor.denormalize
          (DataPreprocessor.empty.normalize [5, 5, 5] "cpu").1
          (DataPreprocessor.empty.normalize [5, 5, 5] "cpu").2 "cpu"
        = Except.ok [5, 5, 5] :=
  ⟨by simp, claim_C7_normalize_roundtrip DataPreprocessor.empty [5, 5, 5] "cpu" (by simp)⟩

/-- C9.  denormalize before any scaling parameters were recorded for the
feature name fails with the unknown-scaler error; after a normalize for
that name it succeeds (returns ok, never throws). -/
theorem claim_C9_unknown_scaler (dp : DataPreprocessor) (nd values : List ℚ)
    (key : String) (hnone : dp.scalers.lookup key = none) :
    dp.denormalize nd key = Except.error ("No scaler found for feature: " ++ key)
      ∧ ∃ out, DataPreprocessor.denormalize (dp.normalize values key).1 nd key
          = Except.ok out := by
  constructor
  · unfold DataPreprocessor.denormalize
    rw [hnone]
  · unfold DataPreprocessor.normalize DataPreprocessor.denormalize
    simp only [List.lookup_cons_self]
    exact ⟨_, rfl⟩

/-- Witness for C9: a fresh preprocessor and the feature name "cpu". -/
theorem claim_C9_unknown_scaler_witness :
    (DataPreprocessor.empty.scalers.lookup "cpu" = none)
      ∧ (DataPreprocessor.empty.denormalize [(1 : ℚ), 2] "cpu"
          = Except.error ("No scaler found for feature: " ++ "cpu")
        ∧ ∃ out, DataPreprocessor.denormalize
            (DataPreprocessor.empty.normalize [(3 : ℚ), 7] "cpu").1 [(1 : ℚ), 2] "cpu"
            = Except.ok out) :=
  ⟨rfl, claim_C9_unknown_scaler DataPreprocessor.empty [1, 2] [3, 7] "cpu" rfl⟩

/-! ## IsolationForest (anomalyDetector.js)

JavaScript numbers are modelled as ℝ here because predict takes a real
logarithm and a real power.  Tree construction (buildTree/fit) draws from
an unseeded random source and is not needed by the claims; predict is
verified over arbitrary tree ensembles, which includes every ensemble fit
can produce.  Indexing `point[featureIndex]` past the end of the vector is
modelled with default 0 — the claims proved below do not depend on which
branch a descent takes. -/

/-- Isolation tree: tagged variant; leaves store their subset size. -/
inductive ITree
  | leaf (size : ℕ)
  | internal (featureIndex : ℕ) (splitValue : ℝ) (left : ITree) (right : ITree)

/-- Correction term at a leaf of size n (average path length of an
unsuccessful BST search): `size > 1 ? 2*(Math.log(size-1) + 0.5772156649) -
(2*(size-1)/size) : 0`. -/
noncomputable def cFactor (n : ℕ) : ℝ :=
  if 1 < n then
    2 * (Real.log ((n : ℝ) - 1) + 0.5772156649) - 2 * ((n : ℝ) - 1) / (n : ℝ)
  else 0

/-- pathLength(point, tree, currentDepth): descend by comparing the
point's coordinate at the split feature, accumulating depth; a leaf
contributes the correction term on top of the depth reached. -/
noncomputable def pathLength (point : List ℝ) : ITree → ℕ → ℝ
  | .leaf size, currentDepth => (currentDepth : ℝ) + cFactor size
  | .internal featureIndex splitValue left right, currentDepth =>
    if point.getD featureIndex 0 < splitValue then
      pathLength point left (currentDepth + 1)
    else
      pathLength point right (currentDepth + 1)

structure IsolationForest where
  numTrees : ℕ
  sampleSize : ℕ
  contamination : ℝ
  trees : List ITree
  trained : Bool

/-- predict(point): returns 0 when untrained or the tree list is empty;
otherwise averages the per-tree path lengths over numTrees and returns the
anomaly score `Math.pow(2, -avgPathLength / c)` with c the correction term
at sampleSize.  The source's catch-all (`try/catch` returning 0) never
triggers in this total real-number model. -/
noncomputable def IsolationForest.predict (f : IsolationForest) (point : List ℝ) : ℝ :=
  if f.trained && !f.trees.isEmpty then
    let avgPathLength :=
      (f.trees.map (fun tree => pathLength point tree 0)).sum / (f.numTrees : ℝ)
    let c := 2 * (Real.log ((f.sampleSize : ℝ) - 1) + 0.5772156649)
      - 2 * ((f.sampleSize : ℝ) - 1) / (f.sampleSize : ℝ)
    (2 : ℝ) ^ (-(avgPathLength / c))
  else 0

/-! ## LSTMPredictor (timeSeriesPredictor.js)

The TensorFlow model object is an external collaborator: a call of
`this.model.predict` is modelled by an oracle `infer` returning `none`
when the call throws and `some v` when it yields the value v.  Scaling
uses only field arithmetic, so ℚ models the JS numbers. -/

structure LSTMPredictor where
  inputShape : ℕ
  hiddenUnits : ℕ
  hasModel : Bool
  trained : Bool
  normParams : Option (ℚ × ℚ)

/-- predict(sequence): fail-safe inference.  Returns the last element of
the window (0 when empty) when untrained, the model is missing, scaling
parameters are absent, or the model call fails; otherwise normalizes with
the stored `{min, max}` (range floored to 1), queries the model and
denormalizes with `value * (max - min) + min`. -/
def LSTMPredictor.predict (pr : LSTMPredictor) (infer : List ℚ → Option ℚ)
    (sequence : List ℚ) : ℚ :=
  let last := sequence.getLastD 0
  match pr.normParams with
  | none => last
  | some np =>
    if pr.trained && pr.hasModel then
      let normalized := sequence.map (fun val =>
        (val - np.1) / (if np.2 - np.1 = 0 then 1 else np.2 - np.1))
      match infer normalized with
      | none => last
      | some value => value * (np.2 - np.1) + np.1
    else last

/-- Loop body of predictMultiStep: window is the trailing inputShape slice
(`currentSequence.slice(-this.inputShape)`), each prediction is pushed and
fed back. -/
def multiStepLoop (pr : LSTMPredictor) (infer : List ℚ → Option ℚ) :
    ℕ → List ℚ → List ℚ
  | 0, _ => []
  | n + 1, currentSequence =>
    let window := currentSequence.drop (currentSequence.length - pr.inputShape)
    let nextValue := pr.predict infer window
    nextValue :: multiStepLoop pr infer n (currentSequence ++ [nextValue])

/-- predictMultiStep(sequence, steps): `steps` copies of the fail-safe
default when unusable, otherwise the iterated feedback loop. -/
def LSTMPredictor.predictMultiStep (pr : LSTMPredictor) (infer : List ℚ → Option ℚ)
    (sequence : List ℚ) (steps : ℕ) : List ℚ :=
  if pr.trained && pr.hasModel && pr.normParams.isSome then
    multiStepLoop pr infer steps sequence
  else List.replicate steps (sequence.getLastD 0)

/-! ## ProcessClassifier (processClassifier.js)

The wrapped random-forest model is external: `modelPredict` returns
`none` when the underlying call throws, and otherwise the predicted class
index together with `some` probability vector when the model exposes
`predictionProba` and `none` when it does not. -/

structure ProcSample where
  cpu : ℚ
  memory : ℚ
  threads : ℚ
  priority : ℚ
  ioRead : ℚ
  ioWrite : ℚ
  networkSent : ℚ
  networkReceived : ℚ

/-- extractFeatures(process): the 8 metric fields, threads defaulted to 1
when falsy (`process.threads || 1`). -/
def extractFeatures (process : ProcSample) : List ℚ :=
  [process.cpu, process.memory,
   (if process.threads = 0 then 1 else process.threads), process.priority,
   process.ioRead, process.ioWrite, process.networkSent, process.networkReceived]

structure ClassifyResult where
  className : String
  confidence : ℚ
  probabilities : List (String × ℚ)
deriving DecidableEq

/-- defaultResult from predict: {class: 'unknown', confidence: 0,
probabilities: {}}. -/
def defaultResult : ClassifyResult := ⟨"unknown", 0, []⟩

structure ProcessClassifier where
  classes : List String
  hasModel : Bool
  trained : Bool

/-- Constructor state: the fixed label set, no model, untrained. -/
def newProcessClassifier : ProcessClassifier :=
  ⟨["web-server", "database", "application", "cache", "ml-training", "system"],
   false, false⟩

/-- predict(process): the default when untrained or the model is missing;
otherwise queries the model (returning the default if it throws), reads
the class name off the label list, and fills confidence/probabilities only
when the probability capability is available. -/
def ProcessClassifier.predict (c : ProcessClassifier)
    (modelPredict : List ℚ → Option (ℕ × Option (List ℚ)))
    (process : ProcSample) : ClassifyResult :=
  if !c.trained || !c.hasModel then defaultResult
  else
    match modelPredict (extractFeatures process) with
    | none => defaultResult
    | some (prediction, proba?) =>
      let className := c.classes.getD prediction "undefined"
      match proba? with
      | none => ⟨className, 0, []⟩
      | some proba =>
        ⟨className, proba.getD prediction 0,
         c.classes.enum.map (fun p => (p.2, proba.getD p.1 0))⟩

/-! ## MLService.predictFuture (mlService.js) -/

/-- Snapshot pushed by storeMetrics ({cpu, memory, ioRead, ioWrite} plus
the timestamp it adds). -/
structure MetricsSnapshot where
  cpu : ℚ
  memory : ℚ
  ioRead : ℚ
  ioWrite : ℚ
  timestamp : ℕ
deriving DecidableEq

structure MLServiceState where
  predictor : LSTMPredictor
  metricsHistory : List (String × List MetricsSnapshot)

/-- predictFuture(processId, steps): null when the predictor is untrained
or fewer than 10 history points are stored; otherwise predictMultiStep on
the cpu series of the last 10 snapshots. -/
def MLServiceState.predictFuture (svc : MLServiceState)
    (infer : List ℚ → Option ℚ) (processId : String) (steps : ℕ) :
    Option (List ℚ) :=
  if !svc.predictor.trained then none
  else
    match svc.metricsHistory.lookup processId with
    | none => none
    | some history =>
      if history.length < 10 then none
      else
        let cpuHistory := history.map (fun m => m.cpu)
        some (svc.predictor.predictMultiStep infer
          (cpuHistory.drop (cpuHistory.length - 10)) steps)

/-! ### Positivity facts for the isolation-forest score -/

theorem cFactor_pos {n : ℕ} (hn : 2 ≤ n) : 0 < cFactor n := by
  unfold cFactor
  rw [if_pos (by omega)]
  rcases eq_or_lt_of_le hn with h2 | h3
  · rw [← h2]
    have h1 : ((2 : ℕ) : ℝ) - 1 = 1 := by norm_num
    rw [h1, Real.log_one]
    norm_num
  · have h3n : 3 ≤ n := h3
    have h3r : (3 : ℝ) ≤ (n : ℝ) := by exact_mod_cast h3n
    have hlog2 : Real.log 2 ≤ Real.log ((n : ℝ) - 1) :=
      Real.log_le_log (by norm_num) (by linarith)
    have hl2 := Real.log_two_gt_d9
    have hnpos : (0 : ℝ) < (n : ℝ) := by linarith
    have hfrac : 2 * ((n : ℝ) - 1) / (n : ℝ) < 2 := by
      rw [div_lt_iff₀ hnpos]
      linarith
    linarith

theorem cFactor_nonneg (n : ℕ) : 0 ≤ cFactor n := by
  by_cases hn : 2 ≤ n
  · exact (cFactor_pos hn).le
  · unfold cFactor
    rw [if_neg (by omega)]

theorem pathLength_nonneg (point : List ℝ) (t : ITree) (d : ℕ) :
    0 ≤ pathLength point t d := by
  induction t generalizing d with
  | leaf n =>
    simp only [pathLength]
    exact add_nonneg (Nat.cast_nonneg d) (cFactor_nonneg n)
  | internal i s l r ihl ihr =>
    simp only [pathLength]
    split_ifs
    · exact ihl _
    · exact ihr _

/-! ### Claim theorems about the ML inference paths -/

/-- C3.  For a fitted forest (trained, non-empty ensemble, positive tree
count, sampleSize at least 2, as the defaults 100/256 are) predict returns
a score in (0, 1] on every feature vector; and the leaf correction term is
0 at size 1 and 2·(ln(n−1) + 0.5772156649) − 2·(n−1)/n at size n > 1. -/
theorem claim_C3_predict_in_unit :
    (∀ (f : IsolationForest) (point : List ℝ),
        f.trained = true → f.trees ≠ [] → 0 < f.numTrees → 2 ≤ f.sampleSize →
        0 < f.predict point ∧ f.predict point ≤ 1)
    ∧ cFactor 1 = 0
    ∧ (∀ n : ℕ, 1 < n →
        cFactor n = 2 * (Real.log ((n : ℝ) - 1) + 0.5772156649)
          - 2 * ((n : ℝ) - 1) / (n : ℝ)) := by
  refine ⟨fun f point htr hne hnt hss => ?_, by simp [cFactor],
    fun n hn => by rw [cFactor, if_pos hn]⟩
  have hcond : (f.trained && !f.trees.isEmpty) = true := by
    simp [htr, List.isEmpty_iff, hne]
  have hpredict : f.predict point
      = (2 : ℝ) ^ (-(((f.trees.map (fun tree => pathLength point tree 0)).sum
            / (f.numTrees : ℝ))
          / (2 * (Real.log ((f.sampleSize : ℝ) - 1) + 0.5772156649)
            - 2 * ((f.sampleSize : ℝ) - 1) / (f.sampleSize : ℝ)))) := by
    unfold IsolationForest.predict
    rw [if_pos hcond]
  have hSnn : 0 ≤ (f.trees.map (fun tree => pathLength point tree 0)).sum := by
    apply List.sum_nonneg
    intro x hx
    simp only [List.mem_map] at hx
    obtain ⟨t, _, rfl⟩ := hx
    exact pathLength_nonneg point t 0
  have havg : 0 ≤ (f.trees.map (fun tree => pathLength point tree 0)).sum
      / (f.numTrees : ℝ) := div_nonneg hSnn (Nat.cast_nonneg _)
  have hc : 0 < 2 * (Real.log ((f.sampleSize : ℝ) - 1) + 0.5772156649)
      - 2 * ((f.sampleSize : ℝ) - 1) / (f.sampleSize : ℝ) := by
    have h := cFactor_pos hss
    unfold cFactor at h
    rwa [if_pos (by omega)] at h
  have hexp : -(((f.trees.map (fun tree => pathLength point tree 0)).sum
        / (f.numTrees : ℝ))
      / (2 * (Real.log ((f.sampleSize : ℝ) - 1) + 0.5772156649)
        - 2 * ((f.sampleSize : ℝ) - 1) / (f.sampleSize : ℝ))) ≤ 0 :=
    neg_nonpos.mpr (div_nonneg havg hc.le)
  rw [hpredict]
  exact ⟨Real.rpow_pos_of_pos (by norm_num) _,
    Real.rpow_le_one_of_one_le_of_nonpos (by norm_num) hexp⟩

/-- Witness forest for C3: one trained tree, a single size-1 leaf. -/
noncomputable def wForest : IsolationForest := ⟨1, 256, 0.1, [ITree.leaf 1], true⟩

/-- Witness for C3 at the concrete forest wForest and the empty vector. -/
theorem claim_C3_predict_in_unit_witness :
    (wForest.trained = true ∧ wForest.trees ≠ [] ∧ 0 < wForest.numTrees
        ∧ 2 ≤ wForest.sampleSize)
      ∧ (0 < wForest.predict [] ∧ wForest.predict [] ≤ 1) :=
  ⟨⟨rfl, by simp [wForest], by norm_num [wForest], by norm_num [wForest]⟩,
   claim_C3_predict_in_unit.1 wForest [] rfl (by simp [wForest])
     (by norm_num [wForest]) (by norm_num [wForest])⟩

/-- C4.  Fail-safe defaults: IsolationForest.predict returns 0 on an
untrained or treeless forest (the remaining numeric-fault case of the
source's catch cannot occur in the total real-number model);
LSTMPredictor.predict returns the last window element (0 for an empty
window) whenever the predictor is untrained, the model object is missing,
scaling parameters are absent, or the model call fails. -/
theorem claim_C4_failsafe_defaults :
    (∀ (f : IsolationForest) (point : List ℝ),
        f.trained = false ∨ f.trees = [] → f.predict point = 0)
    ∧ (∀ (pr : LSTMPredictor) (infer : List ℚ → Option ℚ) (seq : List ℚ),
        pr.trained = false ∨ pr.hasModel = false ∨ pr.normParams = none →
        pr.predict infer seq = seq.getLastD 0)
    ∧ (∀ (pr : LSTMPredictor) (infer : List ℚ → Option ℚ) (seq : List ℚ),
        (∀ l, infer l = none) → pr.predict infer seq = seq.getLastD 0)
    ∧ ([] : List ℚ).getLastD 0 = 0 := by
  refine ⟨?_, ?_, ?_, rfl⟩
  · intro f point h
    unfold IsolationForest.predict
    rcases h with h | h <;> simp [h]
  · intro pr infer seq h
    rcases h with h | h | h
    · cases hnp : pr.normParams with
      | none => simp [LSTMPredictor.predict, hnp]
      | some np => simp [LSTMPredictor.predict, hnp, h]
    · cases hnp : pr.normParams with
      | none => simp [LSTMPredictor.predict, hnp]
      | some np => simp [LSTMPredictor.predict, hnp, h]
    · simp [LSTMPredictor.predict, h]
  · intro pr infer seq h
    cases hnp : pr.normParams with
    | none => simp [LSTMPredictor.predict, hnp]
    | some np =>
      simp only [LSTMPredictor.predict, hnp]
      split_ifs with ht h0
      · rw [h]
      · rw [h]
      · rfl

/-- Witness untrained forest for C4. -/
noncomputable def wForestU : IsolationForest := ⟨100, 256, 0.1, [], false⟩

/-- Witness fresh predictor for C4. -/
def wPredictorU : LSTMPredictor := ⟨10, 50, false, false, none⟩

/-- Witness for C4 at concrete untrained instances. -/
theorem claim_C4_failsafe_defaults_witness :
    ((wForestU.trained = false ∨ wForestU.trees = [])
        ∧ wForestU.predict [3] = 0)
      ∧ ((wPredictorU.trained = false ∨ wPredictorU.hasModel = false
            ∨ wPredictorU.normParams = none)
        ∧ wPredictorU.predict (fun _ => none) [4, 7] = [(4 : ℚ), 7].getLastD 0) :=
  ⟨⟨Or.inl rfl, claim_C4_failsafe_defaults.1 wForestU [3] (Or.inl rfl)⟩,
   ⟨Or.inl rfl, claim_C4_failsafe_defaults.2.1 wPredictorU (fun _ => none)
      [4, 7] (Or.inl rfl)⟩⟩

/-- C5.  predict on an untrained classifier returns exactly
{class: 'unknown', confidence: 0, probabilities: {}} (and, being a total
function, never raises), whatever the process and the wrapped model. -/
theorem claim_C5_untrained_default (c : ProcessClassifier)
    (modelPredict : List ℚ → Option (ℕ × Option (List ℚ)))
    (process : ProcSample) (h : c.trained = false) :
    c.predict modelPredict process = ⟨"unknown", 0, []⟩ := by
  unfold ProcessClassifier.predict
  rw [if_pos (by simp [h])]
  rfl

/-- Witness for C5 at the freshly constructed classifier. -/
theorem claim_C5_untrained_default_witness :
    newProcessClassifier.trained = false
      ∧ newProcessClassifier.predict (fun _ => some (0, none)) ⟨1, 2, 3, 4, 5, 6, 7, 8⟩
        = ⟨"unknown", 0, []⟩ :=
  ⟨rfl, claim_C5_untrained_default newProcessClassifier _ _ rfl⟩

theorem multiStepLoop_length (pr : LSTMPredictor) (infer : List ℚ → Option ℚ)
    (n : ℕ) : ∀ cur, (multiStepLoop pr infer n cur).length = n := by
  induction n with
  | zero => intro cur; rfl
  | succ n ih =>
    intro cur
    simp [multiStepLoop, ih]

theorem predictMultiStep_length (pr : LSTMPredictor) (infer : List ℚ → Option ℚ)
    (seq : List ℚ) (steps : ℕ) :
    (pr.predictMultiStep infer seq steps).length = steps := by
  unfold LSTMPredictor.predictMultiStep
  split_ifs
  · exact multiStepLoop_length pr infer steps seq
  · exact List.length_replicate steps _

/-- C8.  predictFuture returns null when the predictor is untrained or
when the process has no stored history or fewer than 10 snapshots; with a
trained predictor and at least 10 snapshots it returns exactly `steps`
forecast values. -/
theorem claim_C8_predictFuture_contract :
    (∀ (svc : MLServiceState) (infer : List ℚ → Option ℚ) (pid : String) (steps : ℕ),
        svc.predictor.trained = false → svc.predictFuture infer pid steps = none)
    ∧ (∀ (svc : MLServiceState) (infer : List ℚ → Option ℚ) (pid : String) (steps : ℕ),
        svc.metricsHistory.lookup pid = none →
        svc.predictFuture infer pid steps = none)
    ∧ (∀ (svc : MLServiceState) (infer : List ℚ → Option ℚ) (pid : String)
          (steps : ℕ) (history : List MetricsSnapshot),
        svc.metricsHistory.lookup pid = some history → history.length < 10 →
        svc.predictFuture infer pid steps = none)
    ∧ (∀ (svc : MLServiceState) (infer : List ℚ → Option ℚ) (pid : String)
          (steps : ℕ) (history : List MetricsSnapshot),
        svc.predictor.trained = true →
        svc.metricsHistory.lookup pid = some history → 10 ≤ history.length →
        ∃ predictions, svc.predictFuture infer pid steps = some predictions
          ∧ predictions.length = steps) := by
  refine ⟨?_, ?_, ?_, ?_⟩
  · intro svc infer pid steps h
    simp [MLServiceState.predictFuture, h]
  · intro svc infer pid steps h
    unfold MLServiceState.predictFuture
    by_cases ht : svc.predictor.trained <;> simp [ht, h]
  · intro svc infer pid steps history h hlen
    unfold MLServiceState.predictFuture
    by_cases ht : svc.predictor.trained <;> simp [ht, h, hlen]
  · intro svc infer pid steps history ht h hlen
    unfold MLServiceState.predictFuture
    simp only [ht, Bool.not_true, Bool.false_eq_true, if_false, h,
      if_neg (not_lt.mpr hlen)]
    exact ⟨_, rfl, predictMultiStep_length _ _ _ _⟩

/-- Witness 12-snapshot history for C8. -/
def wHistory : List MetricsSnapshot := List.replicate 12 ⟨50, 0, 0, 0, 0⟩

/-- Witness trained service for C8. -/
def wService : MLServiceState :=
  ⟨⟨10, 50, true, true, some (0, 100)⟩, [("1234", wHistory)]⟩

/-- Witness for C8 at the concrete trained service. -/
theorem claim_C8_predictFuture_contract_witness :
    wService.predictor.trained = true
      ∧ wService.metricsHistory.lookup "1234" = some wHistory
      ∧ 10 ≤ wHistory.length
      ∧ ∃ predictions,
          wService.predictFuture (fun _ => some (1 / 2)) "1234" 5 = some predictions
            ∧ predictions.length = 5 :=
  ⟨rfl, rfl, by decide,
   claim_C8_predictFuture_contract.2.2.2 wService (fun _ => some (1 / 2)) "1234" 5
     wHistory rfl rfl (by decide)⟩

end ProcessMonitor
